import Mathlib

/-
  Verification of the RBAC authorization core of a layered REST API template.

  The development shallowly embeds:
  - the Result class (lib/result/result, source part_002);
  - the error classes and the HTTP status each declares
    (UnauthorizedError part_008, NotFoundError not-found.error.ts,
     ForbiddenError forbidden.error.ts, DatabaseError via InfrastructureError part_004);
  - CheckPermissionUseCase.execute and GetActiveUserByIdUseCase.execute (part_014);
  - UserRepositoryImpl.findById over Prisma records with a soft-delete marker (part_012);
  - AuthenticationMiddleware.handle and AuthorizationMiddleware.requirePermission
    (part_011), including the JavaScript single-character String.prototype.split
    semantics used by both;
  - the protected-route pipeline declared in PermissionsRoutes.setupRoutes.

  Repository interfaces are records of functions, matching the constructor-injected
  IUserRepository / IRoleRepository / IPermissionRepository ports.
-/

namespace RestApi

/-- Outcome type mirroring the Result class of part_002. The class constructor is
private and only the static factories ok and fail build instances, so every Result
value is exactly a success holding a value or a failure holding an error. -/
inductive Result (α ε : Type) where
  | ok (v : α)
  | fail (e : ε)
deriving DecidableEq

/-- Mirrors isSuccess, which returns the private discriminant set to true by ok and
false by fail (part_002 lines 52-54). -/
def Result.isSuccess {α ε : Type} : Result α ε → Bool
  | .ok _ => true
  | .fail _ => false

/-- Mirrors isFailure, defined in the source as the boolean negation of the
discriminant (part_002 lines 59-61). -/
def Result.isFailure {α ε : Type} (r : Result α ε) : Bool :=
  !r.isSuccess

/-- Mirrors the value getter (part_002 lines 67-74): it throws unless the result is a
success; the throw is modelled as Except.error carrying the thrown message. -/
def Result.value {α ε : Type} : Result α ε → Except String α
  | .ok v => .ok v
  | .fail _ =>
    .error "Cant get the value of an error result. Use isSuccess() before accessing value."

/-- Mirrors the error getter (part_002 lines 80-87): it throws unless the result is a
failure; the throw is modelled as Except.error carrying the thrown message. -/
def Result.error {α ε : Type} : Result α ε → Except String ε
  | .ok _ =>
    .error "Cant get the error of a success result. Use isFailure() before accessing error."
  | .fail e => .ok e

/-- The concrete error classes produced by the authentication and authorization core:
UnauthorizedError (part_008), NotFoundError (not-found.error.ts, carrying entityType and
entityId), ForbiddenError (forbidden.error.ts), ValidationError (common errors module),
DatabaseError (database.error, an InfrastructureError). -/
inductive Err where
  | unauthorizedError (message : String)
  | notFoundError (entityType entityId : String)
  | forbiddenError (action resource message : String)
  | validationError (field message : String)
  | databaseError (message : String)
deriving DecidableEq

/-- HTTP status each error class declares, surfaced verbatim by
ErrorMapper.toProblemDetails (part_007 line 102, withStatus error.httpStatus) and sent
as the response status by ErrorHandlerMiddleware.handle: UnauthorizedError 401
(part_008 line 65), NotFoundError 404 (not-found.error.ts line 52), ForbiddenError 403
(forbidden.error.ts line 72), ValidationError 400 (common errors module documentation),
DatabaseError 500 (InfrastructureError default, part_004 line 57). -/
def Err.httpStatus : Err → Nat
  | .unauthorizedError _ => 401
  | .notFoundError _ _ => 404
  | .forbiddenError _ _ _ => 403
  | .validationError _ _ => 400
  | .databaseError _ => 500

/-- Permission entity: one (resource, action) grant with a description and an opaque
identity (spec section 3). -/
structure Permission where
  id : String
  resource : String
  action : String
  description : String
deriving DecidableEq

/-- Modelled from the spec: the Permission entity class is not under src (only its
caller CheckPermissionUseCase.execute, part_014 line 83, is). Spec sections 3 and 4.1:
a Permission grants(resource, action) iff (this.resource == resource OR
this.resource == "*") AND (this.action == action OR this.action == "*"). -/
def Permission.grants (p : Permission) (resource action : String) : Bool :=
  (p.resource == resource || p.resource == "*") && (p.action == action || p.action == "*")

/-- Role aggregate: name and an ordered sequence of Permission references, exposed by
getPermissionIds (spec section 3); the entity class is not under src, only its caller. -/
structure Role where
  id : String
  name : String
  permissionIds : List String
deriving DecidableEq

/-- User entity as reconstituted by UserRepositoryImpl (part_012 lines 34-44): identity,
active flag, and the single role reference, the fields the authorization core reads. -/
structure User where
  id : String
  isActive : Bool
  roleId : String
deriving DecidableEq

/-- Modelled from the spec: the User entity class is not under src (only its callers
are). Spec section 3: canAuthenticate() holds iff the user exists, is not soft-deleted,
and isActive == true. An in-memory User here always exists, and the repository
reconstitutes entities only from rows whose soft-delete marker is null (part_012
line 17), so on reconstituted users the method reduces to the active flag. -/
def User.canAuthenticate (u : User) : Bool :=
  u.isActive

/-- Database row of the user table as read by Prisma in part_012, including the
soft-delete marker deletedAt (a nullable timestamp, modelled as Option Nat). -/
structure UserRecord where
  id : String
  email : String
  password : String
  isActive : Bool
  roleId : String
  deletedAt : Option Nat
deriving DecidableEq

/-- IUserRepository port: constructor-injected into both use cases. -/
structure IUserRepository where
  findById : String → Result (Option User) Err

/-- IRoleRepository port. -/
structure IRoleRepository where
  findById : String → Result (Option Role) Err

/-- IPermissionRepository port: batch lookup by id list. -/
structure IPermissionRepository where
  findByIds : List String → Result (List Permission) Err

/-- UserRepositoryImpl.findById (part_012 lines 14-54): findFirst over the user table
with the filter (id = given and deletedAt = null); an absent or soft-deleted row yields
ok null, a live row is reconstituted into a User entity. The Email and RoleId
value-object conversions (whose classes are not under src) are modelled as succeeding,
the records in this model carrying already-valid fields. -/
def UserRepositoryImpl.findById (db : List UserRecord) (id : String) :
    Result (Option User) Err :=
  match db.find? (fun r => r.id == id && r.deletedAt == none) with
  | none => .ok none
  | some r => .ok (some { id := r.id, isActive := r.isActive, roleId := r.roleId })

/-- CheckPermissionUseCase.execute (part_014 lines 38-88): user lookup, inactive
short-circuit, role lookup, empty-permission-set short-circuit, batch permission fetch,
and the some-grants match. -/
def CheckPermissionUseCase.execute (userRepository : IUserRepository)
    (roleRepository : IRoleRepository) (permissionRepository : IPermissionRepository)
    (userId : String) (resource action : String) : Result Bool Err :=
  match userRepository.findById userId with
  | .fail e => .fail e
  | .ok none => .fail (.notFoundError "User" userId)
  | .ok (some user) =>
    if !user.isActive then
      .ok false
    else
      match roleRepository.findById user.roleId with
      | .fail e => .fail e
      | .ok none => .fail (.notFoundError "Role" user.roleId)
      | .ok (some role) =>
        let permissionIds := role.permissionIds
        if permissionIds.length == 0 then
          .ok false
        else
          match permissionRepository.findByIds permissionIds with
          | .fail e => .fail e
          | .ok permissions =>
            .ok (permissions.any (fun permission => permission.grants resource action))

/-- GetActiveUserByIdUseCase.execute (part_014 lines 10-23): repository failure is
propagated; a missing value or a user failing canAuthenticate() yields the
UnauthorizedError with message User inactive or not found. -/
def GetActiveUserByIdUseCase.execute (userRepository : IUserRepository)
    (userId : String) : Result User Err :=
  match userRepository.findById userId with
  | .fail e => .fail e
  | .ok none => .fail (.unauthorizedError "User inactive or not found")
  | .ok (some user) =>
    if !user.canAuthenticate then
      .fail (.unauthorizedError "User inactive or not found")
    else
      .ok user

/-- JavaScript String.prototype.split with a single-character separator, on the
character list: the empty input yields one empty group, a separator opens a new group,
any other character is prepended to the current first group. -/
def splitChars (sep : Char) : List Char → List (List Char)
  | [] => [[]]
  | c :: cs =>
    let rest := splitChars sep cs
    if c = sep then
      [] :: rest
    else
      match rest with
      | [] => [[c]]
      | g :: gs => (c :: g) :: gs

/-- JavaScript split on strings: both middlewares in part_011 use it with the
separators colon and space. -/
def jsSplit (sep : Char) (s : String) : List String :=
  (splitChars sep s.data).map (fun cs => String.mk cs)

/-- Outcome of one Express middleware invocation: next() with no argument lets the
chain continue, next(error) diverts to the error handler. -/
inductive MiddlewareOutcome where
  | proceed
  | abort (e : Err)
deriving DecidableEq

/-- One iteration of the requirePermission loop (part_011 lines 107-136): destructure
the first two colon-separated tokens of the permission code (a missing token, like the
undefined from JavaScript destructuring, and an empty token are both falsy), reject a
falsy token as a ValidationError, otherwise consult the permission check, propagating
its failure and turning a false grant into a ForbiddenError. -/
def AuthorizationMiddleware.checkOne (check : String → String → Result Bool Err)
    (permissionCode : String) : MiddlewareOutcome :=
  let parts := jsSplit ':' permissionCode
  let resource := parts.getD 0 ""
  let action := parts.getD 1 ""
  if resource == "" || action == "" then
    .abort (.validationError "permission" "Invalid permission format")
  else
    match check resource action with
    | .fail e => .abort e
    | .ok hasPermission =>
      if !hasPermission then
        .abort (.forbiddenError action resource "Missing required permission")
      else
        .proceed

/-- The for-loop of requirePermission over the required permission codes (part_011
lines 107-138): the first non-proceed iteration is returned, an exhausted list calls
next() cleanly. -/
def AuthorizationMiddleware.checkAll (check : String → String → Result Bool Err) :
    List String → MiddlewareOutcome
  | [] => .proceed
  | code :: rest =>
    match AuthorizationMiddleware.checkOne check code with
    | .abort e => .abort e
    | .proceed => AuthorizationMiddleware.checkAll check rest

/-- AuthorizationMiddleware.requirePermission (part_011 lines 93-140): a missing
request user aborts Unauthorized, a user id failing UserId.fromString (a value-object
parser not under src, passed here as the fromString collaborator) aborts Unauthorized,
otherwise the permission codes run through the loop. The string-or-array argument
normalization of line 94 is modelled by taking the list form. -/
def AuthorizationMiddleware.requirePermission
    (check : String → String → String → Result Bool Err)
    (fromString : String → Result String Err)
    (permissions : List String) (reqUserId : Option String) : MiddlewareOutcome :=
  match reqUserId with
  | none => .abort (.unauthorizedError "Token missing")
  | some uid =>
    match fromString uid with
    | .fail _ => .abort (.unauthorizedError "Invalid user context")
    | .ok userId => AuthorizationMiddleware.checkAll (check userId) permissions

/-- Outcome of the authentication middleware: proceed carries the user id attached to
the request (req.userId), abort is next(error). -/
inductive AuthnOutcome where
  | proceed (userId : String)
  | abort (e : Err)
deriving DecidableEq

/-- Verification continuation of AuthenticationMiddleware.handle (part_011 lines
168-187): the token service verifies the token, the extracted payload user id runs
through UserId.fromString, and GetActiveUserByIdUseCase resolves the active user whose
id is attached to the request (req.userId) on proceed. -/
def AuthenticationMiddleware.afterHeader (verify : String → Result String Err)
    (fromString : String → Result String Err)
    (userRepository : IUserRepository) (token : String) : AuthnOutcome :=
  match verify token with
  | .fail e => .abort e
  | .ok payloadUserId =>
    match fromString payloadUserId with
    | .fail _ => .abort (.unauthorizedError "Invalid token payload")
    | .ok userId =>
      match GetActiveUserByIdUseCase.execute userRepository userId with
      | .fail e => .abort e
      | .ok user => .proceed user.id

/-- AuthenticationMiddleware.handle (part_011 lines 155-188): a missing or empty
(falsy) header aborts with Token missing; the header splits on spaces and the first
two segments are read as scheme and token (a missing segment, like the undefined from
destructuring, and an empty segment are both falsy); a scheme other than Bearer or a
falsy token aborts with Invalid authorization header; otherwise control passes to the
verification continuation with the parsed token. -/
def AuthenticationMiddleware.handle (verify : String → Result String Err)
    (fromString : String → Result String Err)
    (userRepository : IUserRepository)
    (authHeader : Option String) : AuthnOutcome :=
  match authHeader with
  | none => .abort (.unauthorizedError "Token missing")
  | some h =>
    if h == "" then
      .abort (.unauthorizedError "Token missing")
    else
      let parts := jsSplit ' ' h
      let scheme := parts.getD 0 ""
      let token := parts.getD 1 ""
      if scheme != "Bearer" || token == "" then
        .abort (.unauthorizedError "Invalid authorization header")
      else
        AuthenticationMiddleware.afterHeader verify fromString userRepository token

/-- Result of one protected request: either the protected handler executed, or the
chain aborted with exactly one error. -/
inductive PipelineResult where
  | handled
  | errored (e : Err)
deriving DecidableEq

/-- Modelled from the spec: the sequencing of router.get(path, authenticate,
requirePermissionsRead, handler) declared in PermissionsRoutes.setupRoutes is executed
by the external web framework; spec section 4.4 fixes its contract (authentication
first, then the authorization checks, then the handler; any next(error) diverts the
chain to the error handler and skips the rest). The authorization check is wired to
CheckPermissionUseCase.execute as in the identity module composition. -/
def runProtectedRoute (verify fromString : String → Result String Err)
    (userRepository : IUserRepository) (roleRepository : IRoleRepository)
    (permissionRepository : IPermissionRepository)
    (permissions : List String) (authHeader : Option String) : PipelineResult :=
  match AuthenticationMiddleware.handle verify fromString userRepository authHeader with
  | .abort e => .errored e
  | .proceed uid =>
    match AuthorizationMiddleware.requirePermission
        (fun userId resource action =>
          CheckPermissionUseCase.execute userRepository roleRepository
            permissionRepository userId resource action)
        fromString permissions (some uid) with
    | .abort e => .errored e
    | .proceed => .handled

/-! Theorems -/

/-- C1: for every Permission with fields (r, a) and every query (r2, a2),
grants(r2, a2) returns true if and only if (r == r2 or r == "*") and (a == a2 or
a == "*"); in particular a Permission with r = "*" and a = "*" grants every
(r2, a2). -/
theorem grants_iff_wildcard_or_exact (p : Permission) (resource2 action2 : String) :
    (p.grants resource2 action2 = true ↔
      ((p.resource = resource2 ∨ p.resource = "*") ∧
        (p.action = action2 ∨ p.action = "*")))
    ∧ (∀ (i d r2 a2 : String), (Permission.mk i "*" "*" d).grants r2 a2 = true) := by
  constructor
  · simp [Permission.grants]
  · intro i d r2 a2
    simp [Permission.grants]

/-- C10: every Result is exclusively a success or a failure (isFailure is the negation
of isSuccess), ok stores the given value and fail the given error, and the value
getter of a failure, like the error getter of a success, throws (an Except.error in
this model) instead of returning a default. -/
theorem result_exclusive_and_getters {α ε : Type} (r : Result α ε) (v : α) (e : ε) :
    (r.isFailure = !r.isSuccess)
    ∧ ((Result.ok v : Result α ε).isSuccess = true)
    ∧ ((Result.fail e : Result α ε).isSuccess = false)
    ∧ ((Result.ok v : Result α ε).value = Except.ok v)
    ∧ ((Result.fail e : Result α ε).error = Except.ok e)
    ∧ ((Result.fail e : Result α ε).value =
        Except.error
          "Cant get the value of an error result. Use isSuccess() before accessing value.")
    ∧ ((Result.ok v : Result α ε).error =
        Except.error
          "Cant get the error of a success result. Use isFailure() before accessing error.") :=
  ⟨rfl, rfl, rfl, rfl, rfl, rfl, rfl⟩

/-- C2: the multi-permission loop evaluates the codes in the order supplied: the
overall result is a clean proceed iff every code passes, and when every code of a
prefix passes and the next code is denied or errors, that code's outcome is the
overall outcome, independent of the codes that follow it. -/
theorem requirePermission_failFast (check : String → String → Result Bool Err) :
    (∀ (codes : List String),
      AuthorizationMiddleware.checkAll check codes = .proceed ↔
        ∀ code ∈ codes, AuthorizationMiddleware.checkOne check code = .proceed)
    ∧ (∀ (pre : List String) (c : String) (post post2 : List String) (e : Err),
        (∀ code ∈ pre, AuthorizationMiddleware.checkOne check code = .proceed) →
        AuthorizationMiddleware.checkOne check c = .abort e →
        (AuthorizationMiddleware.checkAll check (pre ++ c :: post) = .abort e ∧
          AuthorizationMiddleware.checkAll check (pre ++ c :: post) =
            AuthorizationMiddleware.checkAll check (pre ++ c :: post2))) := by
  constructor
  · intro codes
    induction codes with
    | nil => simp [AuthorizationMiddleware.checkAll]
    | cons code rest ih =>
      simp only [AuthorizationMiddleware.checkAll]
      cases h : AuthorizationMiddleware.checkOne check code with
      | proceed => simp [h, ih]
      | abort e => simp [h]
  · intro pre c post post2 e hpre hc
    induction pre with
    | nil =>
      simp [AuthorizationMiddleware.checkAll, hc]
    | cons p pre ih =>
      have hp : AuthorizationMiddleware.checkOne check p = .proceed :=
        hpre p (by simp)
      have hpre2 : ∀ code ∈ pre, AuthorizationMiddleware.checkOne check code = .proceed :=
        fun code hm => hpre code (by simp [hm])
      simp only [List.cons_append, AuthorizationMiddleware.checkAll, hp]
      exact ih hpre2

/-- Witness for C2: with a checker granting only users:read, the list with
users:read passing, users:write denied and a further code behind it returns exactly
the ForbiddenError of users:write. -/
theorem requirePermission_failFast_witness :
    AuthorizationMiddleware.checkAll
      (fun r a => Result.ok (r == "users" && a == "read"))
      (["users:read"] ++ "users:write" :: ["x:y"]) =
      .abort (.forbiddenError "write" "users" "Missing required permission") :=
  ((requirePermission_failFast
      (fun r a => Result.ok (r == "users" && a == "read"))).2
    ["users:read"] "users:write" ["x:y"] []
    (.forbiddenError "write" "users" "Missing required permission")
    (by decide) (by decide)).1

/-- C3 counterexample: the code a:b:c splits into three colon-separated tokens, so by
the claim it must fail InvalidFormat; the loop iteration instead reads the first two
tokens and, with a checker granting everything, proceeds (a Granted outcome). -/
theorem checkOne_three_tokens_not_invalidFormat :
    (jsSplit ':' "a:b:c").length = 3 ∧
    AuthorizationMiddleware.checkOne (fun _ _ => Result.ok true) "a:b:c" =
      .proceed := by
  decide

/-- C3 amended: a required-permission code fails InvalidFormat, before and
independently of the permission checker, iff its first or second colon-separated token
is missing or empty (in particular a code with no colon, such as users); tokens beyond
the second are ignored rather than rejected. The ValidationError is distinct from the
ForbiddenError expressing a denial. -/
theorem checkOne_invalidFormat_iff (code : String) :
    ((∀ check, AuthorizationMiddleware.checkOne check code =
        .abort (.validationError "permission" "Invalid permission format")) ↔
      ((jsSplit ':' code).getD 0 "" = "" ∨ (jsSplit ':' code).getD 1 "" = ""))
    ∧ (∀ (a r m f m2 : String), Err.validationError f m2 ≠ Err.forbiddenError a r m) := by
  constructor
  · constructor
    · intro hall
      by_contra hne
      push_neg at hne
      obtain ⟨h0, h1⟩ := hne
      simp only [List.getD_eq_getElem?_getD] at h0 h1
      have hx := hall (fun _ _ => Result.ok true)
      simp [AuthorizationMiddleware.checkOne, h0, h1] at hx
    · intro hor check
      simp only [List.getD_eq_getElem?_getD] at hor
      unfold AuthorizationMiddleware.checkOne
      simp only [List.getD_eq_getElem?_getD]
      rcases hor with h | h <;> simp [h]
  · intro a r m f m2 h
    exact Err.noConfusion h

/-- Witness for C3 amended: the colon-free code users fails InvalidFormat whatever the
checker. -/
theorem checkOne_invalidFormat_iff_witness :
    AuthorizationMiddleware.checkOne (fun _ _ => Result.ok true) "users" =
      .abort (.validationError "permission" "Invalid permission format") :=
  ((checkOne_invalidFormat_iff "users").1).2 (by decide) (fun _ _ => Result.ok true)

/-- C4 counterexample: the header Bearer abc def splits into three space-separated
segments, so by the claim authentication must fail with the malformed-header error
before the token service is consulted; instead parsing succeeds with token abc, the
token service is consulted (its failure becomes the outcome), and with a verifying
token service and an active user the request proceeds. -/
theorem handle_extra_segments_not_malformed :
    (jsSplit ' ' "Bearer abc def").length = 3 ∧
    AuthenticationMiddleware.handle
      (fun _ => Result.fail (.unauthorizedError "from verify"))
      (fun s => Result.ok s) ⟨fun _ => Result.ok none⟩ (some "Bearer abc def") =
      .abort (.unauthorizedError "from verify") ∧
    AuthenticationMiddleware.handle (fun t => Result.ok t) (fun s => Result.ok s)
      ⟨fun _ => Result.ok (some ⟨"abc", true, "r1"⟩)⟩ (some "Bearer abc def") =
      .proceed "abc" := by
  decide

/-- C4 amended: a missing or empty header fails with Token missing; otherwise the
header is read as its first two space-separated segments (scheme, token): when the
scheme is not Bearer or the token segment is missing or empty, authentication fails
with the malformed-header error independently of the token service and user store;
when the scheme is Bearer and the token segment is non-empty, authentication proceeds
past header parsing into token verification with that segment — segments beyond the
second are ignored, not rejected. -/
theorem handle_header_parsing (verify fromString : String → Result String Err)
    (userRepository : IUserRepository) :
    (AuthenticationMiddleware.handle verify fromString userRepository none =
      .abort (.unauthorizedError "Token missing"))
    ∧ (AuthenticationMiddleware.handle verify fromString userRepository (some "") =
      .abort (.unauthorizedError "Token missing"))
    ∧ (∀ h : String, h ≠ "" →
        (((jsSplit ' ' h).getD 0 "" ≠ "Bearer" ∨ (jsSplit ' ' h).getD 1 "" = "") →
          ∀ (verify2 fromString2 : String → Result String Err)
            (userRepository2 : IUserRepository),
            AuthenticationMiddleware.handle verify2 fromString2 userRepository2 (some h) =
              .abort (.unauthorizedError "Invalid authorization header"))
        ∧ ((jsSplit ' ' h).getD 0 "" = "Bearer" → (jsSplit ' ' h).getD 1 "" ≠ "" →
          AuthenticationMiddleware.handle verify fromString userRepository (some h) =
            AuthenticationMiddleware.afterHeader verify fromString userRepository
              ((jsSplit ' ' h).getD 1 ""))) := by
  refine ⟨rfl, rfl, ?_⟩
  intro h hne
  constructor
  · intro hor verify2 fromString2 userRepository2
    simp only [List.getD_eq_getElem?_getD] at hor
    unfold AuthenticationMiddleware.handle
    simp only [List.getD_eq_getElem?_getD]
    rcases hor with hs | ht
    · simp [hne, hs]
    · simp [hne, ht]
  · intro hs ht
    simp only [List.getD_eq_getElem?_getD] at hs ht
    unfold AuthenticationMiddleware.handle
    simp only [List.getD_eq_getElem?_getD]
    simp [hne, hs, ht]

/-- Witness for C4 amended: the wrong-scheme header Token abc fails with the
malformed-header error. -/
theorem handle_header_parsing_witness :
    AuthenticationMiddleware.handle (fun t => Result.ok t) (fun s => Result.ok s)
      ⟨fun _ => Result.ok none⟩ (some "Token abc") =
      .abort (.unauthorizedError "Invalid authorization header") :=
  ((handle_header_parsing (fun t => Result.ok t) (fun s => Result.ok s)
      ⟨fun _ => Result.ok none⟩).2.2 "Token abc" (by decide)).1
    (Or.inl (by decide)) (fun t => Result.ok t) (fun s => Result.ok s)
    ⟨fun _ => Result.ok none⟩

/-- C5: an inactive user is Denied (the successful negative Result.ok false) for every
(resource, action), whatever the role and permission repositories hold — the inactive
test short-circuits before the role lookup and the permission fetch. -/
theorem execute_inactive_denied (userRepository : IUserRepository) (userId : String)
    (u : User) (hfind : userRepository.findById userId = .ok (some u))
    (hinactive : u.isActive = false) :
    ∀ (roleRepository : IRoleRepository) (permissionRepository : IPermissionRepository)
      (resource action : String),
      CheckPermissionUseCase.execute userRepository roleRepository permissionRepository
        userId resource action = .ok false := by
  intro roleRepository permissionRepository resource action
  unfold CheckPermissionUseCase.execute
  rw [hfind]
  simp [hinactive]

/-- Witness for C5: a concrete inactive user is denied although the role lookup would
fail and the permission store is empty. -/
theorem execute_inactive_denied_witness :
    CheckPermissionUseCase.execute ⟨fun _ => Result.ok (some ⟨"u1", false, "r1"⟩)⟩
      ⟨fun _ => Result.fail (.databaseError "role lookup consulted")⟩
      ⟨fun _ => Result.ok []⟩ "u1" "users" "read" = Result.ok false :=
  execute_inactive_denied ⟨fun _ => Result.ok (some ⟨"u1", false, "r1"⟩)⟩ "u1"
    ⟨"u1", false, "r1"⟩ rfl rfl
    ⟨fun _ => Result.fail (.databaseError "role lookup consulted")⟩
    ⟨fun _ => Result.ok []⟩ "users" "read"

/-- C6: an active user whose role holds no permission references is Denied for every
(resource, action), whatever the permission repository holds — the empty-set test
short-circuits before the batch permission lookup. -/
theorem execute_emptyRole_denied (userRepository : IUserRepository)
    (roleRepository : IRoleRepository) (userId : String) (u : User) (role : Role)
    (hfind : userRepository.findById userId = .ok (some u))
    (hactive : u.isActive = true)
    (hrole : roleRepository.findById u.roleId = .ok (some role))
    (hempty : role.permissionIds = []) :
    ∀ (permissionRepository : IPermissionRepository) (resource action : String),
      CheckPermissionUseCase.execute userRepository roleRepository permissionRepository
        userId resource action = .ok false := by
  intro permissionRepository resource action
  unfold CheckPermissionUseCase.execute
  rw [hfind]
  simp [hactive, hrole, hempty]

/-- Witness for C6: a concrete active user with an empty-permission role is denied
although the batch permission lookup would fail. -/
theorem execute_emptyRole_denied_witness :
    CheckPermissionUseCase.execute ⟨fun _ => Result.ok (some ⟨"u1", true, "r1"⟩)⟩
      ⟨fun _ => Result.ok (some ⟨"r1", "GUEST", []⟩)⟩
      ⟨fun _ => Result.fail (.databaseError "batch lookup consulted")⟩
      "u1" "anything" "anything" = Result.ok false :=
  execute_emptyRole_denied ⟨fun _ => Result.ok (some ⟨"u1", true, "r1"⟩)⟩
    ⟨fun _ => Result.ok (some ⟨"r1", "GUEST", []⟩)⟩ "u1" ⟨"u1", true, "r1"⟩
    ⟨"r1", "GUEST", []⟩ rfl rfl rfl rfl
    ⟨fun _ => Result.fail (.databaseError "batch lookup consulted")⟩
    "anything" "anything"

/-- C7 counterexample: with the user absent the check fails NotFound(User), but the
failure is surfaced with the HTTP status its error class declares, 404 — the 4xx
client-error class, not a 5xx server-side fault as the claim states. -/
theorem execute_notFound_is_client_error :
    CheckPermissionUseCase.execute ⟨fun _ => Result.ok none⟩ ⟨fun _ => Result.ok none⟩
      ⟨fun _ => Result.ok []⟩ "u1" "users" "read" =
      Result.fail (.notFoundError "User" "u1") ∧
    Err.httpStatus (.notFoundError "User" "u1") = 404 ∧
    ¬(500 ≤ Err.httpStatus (.notFoundError "User" "u1")) := by
  decide

/-- C7 amended: an absent user fails NotFound(User, userId) and an absent role of an
active user fails NotFound(Role, roleId); both are failures distinct from the Denied
outcome, but they are surfaced as NotFoundError with the HTTP status 404 that the
class declares — the client-error class, not a server-side fault. -/
theorem execute_notFound_integrity (userRepository : IUserRepository)
    (roleRepository : IRoleRepository) (permissionRepository : IPermissionRepository)
    (userId resource action : String) :
    (userRepository.findById userId = .ok none →
      CheckPermissionUseCase.execute userRepository roleRepository permissionRepository
        userId resource action = .fail (.notFoundError "User" userId))
    ∧ (∀ u : User, userRepository.findById userId = .ok (some u) → u.isActive = true →
        roleRepository.findById u.roleId = .ok none →
        CheckPermissionUseCase.execute userRepository roleRepository permissionRepository
          userId resource action = .fail (.notFoundError "Role" u.roleId))
    ∧ (∀ t i : String, (Result.fail (.notFoundError t i) : Result Bool Err) ≠ .ok false)
    ∧ Err.httpStatus (.notFoundError "User" userId) = 404 := by
  refine ⟨?_, ?_, ?_, rfl⟩
  · intro hnone
    unfold CheckPermissionUseCase.execute
    rw [hnone]
  · intro u hfind hactive hrole
    unfold CheckPermissionUseCase.execute
    rw [hfind]
    simp [hactive, hrole]
  · intro t i hcontra
    exact Result.noConfusion hcontra

/-- Witness for C7 amended: a concrete absent user yields the NotFound(User) failure. -/
theorem execute_notFound_integrity_witness :
    CheckPermissionUseCase.execute ⟨fun _ => Result.ok none⟩ ⟨fun _ => Result.ok none⟩
      ⟨fun _ => Result.ok []⟩ "42" "users" "read" =
      Result.fail (.notFoundError "User" "42") :=
  (execute_notFound_integrity ⟨fun _ => Result.ok none⟩ ⟨fun _ => Result.ok none⟩
    ⟨fun _ => Result.ok []⟩ "42" "users" "read").1 rfl

/-- C8: when the bearer header parses, the token verifies and its payload parses into
a user identity, but every live (non-soft-deleted) user row with that identity is
inactive — which covers the absent, the soft-deleted and the isActive-false cases,
i.e. canAuthenticate() cannot hold — authentication aborts with the UnauthorizedError
User inactive or not found, and no identity is attached (the abort outcome carries
none). -/
theorem handle_inactive_or_missing (verify fromString : String → Result String Err)
    (db : List UserRecord) (hdr token payloadId userId : String)
    (hscheme : (jsSplit ' ' hdr).getD 0 "" = "Bearer")
    (htoken : (jsSplit ' ' hdr).getD 1 "" = token)
    (htokenNe : token ≠ "")
    (hverify : verify token = .ok payloadId)
    (hfrom : fromString payloadId = .ok userId)
    (hbad : ∀ r ∈ db, r.id = userId → r.deletedAt = none → r.isActive = false) :
    AuthenticationMiddleware.handle verify fromString ⟨UserRepositoryImpl.findById db⟩
      (some hdr) = .abort (.unauthorizedError "User inactive or not found") := by
  have hne : hdr ≠ "" := by
    intro he
    rw [he] at hscheme
    simp [jsSplit, splitChars] at hscheme
  unfold AuthenticationMiddleware.handle
  simp only [List.getD_eq_getElem?_getD] at hscheme htoken
  simp [hne, hscheme, htoken, htokenNe]
  unfold AuthenticationMiddleware.afterHeader
  simp only [hverify, hfrom]
  unfold GetActiveUserByIdUseCase.execute UserRepositoryImpl.findById
  dsimp only
  cases hf : db.find? (fun r => r.id == userId && r.deletedAt == none) with
  | none => rfl
  | some r =>
    have hmem := List.mem_of_find?_eq_some hf
    have hp := List.find?_some hf
    simp only [Bool.and_eq_true, beq_iff_eq] at hp
    have hinact := hbad r hmem hp.1 hp.2
    simp [User.canAuthenticate, hinact]

/-- Witness for C8: a valid token for a soft-deleted user (its row carries a
deletedAt timestamp) fails with the inactive-or-missing UnauthorizedError. -/
theorem handle_inactive_or_missing_witness :
    AuthenticationMiddleware.handle
      (fun t => if t == "tok" then Result.ok "u1"
        else Result.fail (.unauthorizedError "Invalid or expired token"))
      (fun s => Result.ok s)
      ⟨UserRepositoryImpl.findById [⟨"u1", "a@b.c", "hash", true, "r1", some 5⟩]⟩
      (some "Bearer tok") =
      .abort (.unauthorizedError "User inactive or not found") :=
  handle_inactive_or_missing
    (fun t => if t == "tok" then Result.ok "u1"
      else Result.fail (.unauthorizedError "Invalid or expired token"))
    (fun s => Result.ok s)
    [⟨"u1", "a@b.c", "hash", true, "r1", some 5⟩]
    "Bearer tok" "tok" "u1" "u1"
    (by decide) (by decide) (by decide) (by decide) (by decide) (by decide)

/-- C9: authentication runs first — the protected handler executes iff authentication
proceeds with some identity and the declared authorization check proceeds for exactly
that identity; when authentication aborts, the pipeline outcome is that single abort
whatever the role and permission repositories hold (no authorization check, no
handler); and an errored outcome is never the handled one. -/
theorem pipeline_auth_before_authz (verify fromString : String → Result String Err)
    (userRepository : IUserRepository) (roleRepository : IRoleRepository)
    (permissionRepository : IPermissionRepository)
    (permissions : List String) (authHeader : Option String) :
    (runProtectedRoute verify fromString userRepository roleRepository
        permissionRepository permissions authHeader = .handled ↔
      ∃ uid,
        AuthenticationMiddleware.handle verify fromString userRepository authHeader =
          .proceed uid ∧
        AuthorizationMiddleware.requirePermission
          (fun userId resource action =>
            CheckPermissionUseCase.execute userRepository roleRepository
              permissionRepository userId resource action)
          fromString permissions (some uid) = .proceed)
    ∧ (∀ e,
        AuthenticationMiddleware.handle verify fromString userRepository authHeader =
          .abort e →
        ∀ (roleRepository2 : IRoleRepository)
          (permissionRepository2 : IPermissionRepository),
          runProtectedRoute verify fromString userRepository roleRepository2
            permissionRepository2 permissions authHeader = .errored e)
    ∧ (∀ e,
        runProtectedRoute verify fromString userRepository roleRepository
          permissionRepository permissions authHeader = .errored e →
        runProtectedRoute verify fromString userRepository roleRepository
          permissionRepository permissions authHeader ≠ .handled) := by
  refine ⟨?_, ?_, ?_⟩
  · cases hh : AuthenticationMiddleware.handle verify fromString userRepository
        authHeader with
    | abort e =>
      unfold runProtectedRoute
      rw [hh]
      simp
    | proceed uid =>
      unfold runProtectedRoute
      rw [hh]
      cases hz : AuthorizationMiddleware.requirePermission
          (fun userId resource action =>
            CheckPermissionUseCase.execute userRepository roleRepository
              permissionRepository userId resource action)
          fromString permissions (some uid) with
      | abort e => simp [hz]
      | proceed => simp [hz]
  · intro e hh roleRepository2 permissionRepository2
    unfold runProtectedRoute
    rw [hh]
  · intro e herr hcontra
    rw [herr] at hcontra
    exact PipelineResult.noConfusion hcontra

/-- Witness for C9: with no Authorization header the chain stops at authentication
and the pipeline result is that single error, though the permission data would grant
nothing. -/
theorem pipeline_auth_before_authz_witness :
    runProtectedRoute (fun t => Result.ok t) (fun s => Result.ok s)
      ⟨fun _ => Result.ok none⟩ ⟨fun _ => Result.ok none⟩ ⟨fun _ => Result.ok []⟩
      ["permissions:read"] none = .errored (.unauthorizedError "Token missing") :=
  (pipeline_auth_before_authz (fun t => Result.ok t) (fun s => Result.ok s)
      ⟨fun _ => Result.ok none⟩ ⟨fun _ => Result.ok none⟩ ⟨fun _ => Result.ok []⟩
      ["permissions:read"] none).2.1 (.unauthorizedError "Token missing") rfl
    ⟨fun _ => Result.ok none⟩ ⟨fun _ => Result.ok []⟩

end RestApi
